import Mathlib

/-!
Verification of the agentic-rag retrieval engine.

Shallow embedding of the Python source (vector_store.py, rag_retriever.py,
memory_manager.py, config.py) in Lean 4.  Python strings are modelled as
`List Char`; machine floats used only for scoring are modelled exactly in `ℚ`
(all score arithmetic in the source is a product of small decimal constants);
fallible external collaborators (the embedding gateway, the vector index, the
content aggregator) are modelled as `Option` / `Except`-valued parameters.
-/

namespace AgenticRag

/-- Python strings are modelled as explicit character lists, so that slicing
`text[i:j]`, `rfind`, `strip`, `lower` can be mirrored definitionally. -/
abbrev Text := List Char

/-- Coerce a Lean string literal into the `Text` model. -/
def txt (s : String) : Text := s.data

/-! ### config.py -/

/-- config.py: `Config.CHUNK_SIZE`. -/
def CHUNK_SIZE : Nat := 1000

/-- config.py: `Config.CHUNK_OVERLAP`. -/
def CHUNK_OVERLAP : Nat := 200

/-- config.py: `Config.TOP_K_RESULTS`. -/
def TOP_K_RESULTS : Nat := 5

/-! ### vector_store.py — `_chunk_text` (lines 45-80) -/

/-- Python `text[i:i+len(sub)] == sub`: the pattern `sub` occurs in `t` at
position `i`. -/
def subAt (t sub : Text) (i : Nat) : Bool :=
  (t.drop i).take sub.length == sub

/-- Python `text.rfind(sub, start, e)`: index of the last occurrence of `sub`
lying entirely inside the slice `[start, e)` (clamped to the text length), or
`none` where Python returns `-1`. -/
def rfind (t sub : Text) (start e : Nat) : Option Nat :=
  let stop := min e t.length
  ((List.range stop).filter
    (fun i => decide (start ≤ i) && decide (i + sub.length ≤ stop) && subAt t sub i)).getLast?

/-- Python `str.strip()`: drop whitespace from both ends (`List.rdropWhile p m`
is definitionally `(m.reverse.dropWhile p).reverse`). -/
def pyStrip (t : Text) : Text :=
  (t.dropWhile Char.isWhitespace).rdropWhile Char.isWhitespace

/-- vector_store.py lines 57-69: the end of the window starting at `start`,
preferring the last `". "` boundary in the second half of the window, then the
last `" "` boundary in the second half, else the raw offset `start + chunkSize`. -/
def windowEnd (t : Text) (chunkSize start : Nat) : Nat :=
  let e := start + chunkSize
  if e < t.length then
    let wordFallback :=
      match rfind t [' '] start e with
      | some we => if start + chunkSize / 2 < we then we else e
      | none => e
    match rfind t ['.', ' '] start e with
    | some se => if start + chunkSize / 2 < se then se + 1 else wordFallback
    | none => wordFallback
  else e

/-- vector_store.py line 75: `start = max(start + 1, end - overlap)` (a negative
Python `end - overlap` loses to `start + 1` exactly as `Nat` truncation does). -/
def nextStart (start e overlap : Nat) : Nat := max (start + 1) (e - overlap)

/-- vector_store.py lines 56-78: the chunking loop.  Each iteration slices
`text[start:end]`, strips it, keeps it when non-empty, and advances to
`nextStart`.  Lean's termination checker accepts the measure
`t.length - start` because `nextStart` strictly increases `start`. -/
def chunkLoop (t : Text) (chunkSize overlap start : Nat) : List Text :=
  if _h : start < t.length then
    let e := windowEnd t chunkSize start
    let chunk := pyStrip ((t.drop start).take (e - start))
    let rest := chunkLoop t chunkSize overlap (nextStart start e overlap)
    if chunk = [] then rest else chunk :: rest
  else []
termination_by t.length - start
decreasing_by
  simp only [nextStart]
  omega

/-- vector_store.py `_chunk_text` (lines 45-80): texts no longer than
`chunkSize` are returned whole; otherwise the windowing loop runs from 0. -/
def chunkText (t : Text) (chunkSize overlap : Nat) : List Text :=
  if t.length ≤ chunkSize then [t] else chunkLoop t chunkSize overlap 0

/-! ### Data model

The result dictionaries built in vector_store.py lines 168-174 and
rag_retriever.py lines 108-123 carry a flat metadata dict; the fields are
flattened into the record.  Scores are Python floats; every score computed by
the source is a product of small decimal constants and is modelled exactly
in `ℚ`. -/

/-- One formatted search result (vector_store.py `similarity_search` lines
168-174): `similarity_score = 1 - distance`, `advanced_score` present only
after reranking. -/
structure SearchResult where
  id : Text
  content : Text
  title : Text
  author : Text
  date : Text
  topic : Text
  mtype : Text
  distance : ℚ
  similarityScore : ℚ
  advancedScore : Option ℚ
deriving DecidableEq

/-- A document as passed to ingestion (the dict of sample_data_generator /
external_content_retriever: id, title, content, author, date, topic, type). -/
structure Document where
  id : Text
  title : Text
  content : Text
  author : Text
  date : Text
  topic : Text
  dtype : Text
deriving DecidableEq

/-! ### rag_retriever.py — `_deduplicate_results` (lines 128-145) -/

/-- The dedup key of a result (rag_retriever.py line 138):
`result['content'][:200].lower().strip()`.  Python's `hash` of this string is
modelled by the string itself (hash collisions between distinct 200-char
prefixes are ignored). -/
def dedupKey (r : SearchResult) : Text :=
  pyStrip ((r.content.take 200).map Char.toLower)

/-- The loop of `_deduplicate_results`: walk the results, keep a result iff its
key has not been seen, first-seen-wins (the Python `set` is modelled as the
list of seen keys). -/
def deduplicateAux (seen : List Text) : List SearchResult → List SearchResult
  | [] => []
  | r :: rs =>
      if dedupKey r ∈ seen then deduplicateAux seen rs
      else r :: deduplicateAux (dedupKey r :: seen) rs

/-- rag_retriever.py `_deduplicate_results` (lines 128-145). -/
def deduplicateResults (rs : List SearchResult) : List SearchResult :=
  deduplicateAux [] rs

/-! ### rag_retriever.py — `_extract_key_terms` (lines 235-250) -/

/-- The stop-word set of rag_retriever.py lines 238-243 (memory_manager.py
lines 96-101 lists the identical set). -/
def stopWords : List Text :=
  (["the", "a", "an", "and", "or", "but", "in", "on", "at", "to", "for",
    "of", "with", "by", "is", "are", "was", "were", "be", "been", "being",
    "have", "has", "had", "do", "does", "did", "will", "would", "could",
    "should", "may", "might", "can", "what", "how", "when", "where", "why"]).map txt

/-- Regex word characters (`\w` over the ASCII range handled by the model). -/
def isWordChar (c : Char) : Bool := c.isAlpha || c.isDigit || c == '_'

/-- Maximal runs of word characters (`cur` carries the current run in
reverse). -/
def wordRunsAux (cur : Text) : Text → List Text
  | [] => if cur = [] then [] else [cur.reverse]
  | c :: cs =>
      if isWordChar c then wordRunsAux (c :: cur) cs
      else if cur = [] then wordRunsAux [] cs
      else cur.reverse :: wordRunsAux [] cs

/-- The matches of `re.findall(r'\b[a-zA-Z]+\b', t)`: because `\b` separates
word characters (letters, digits, underscore) from the rest, these are exactly
the maximal word-character runs consisting purely of letters. -/
def letterRuns (t : Text) : List Text :=
  (wordRunsAux [] t).filter (fun w => w.all Char.isAlpha)

/-- rag_retriever.py `_extract_key_terms` (lines 235-250): words of the
lowercased text, stop words and words of length ≤ 2 removed, first five kept.
The source joins the terms with single spaces and every consumer immediately
splits the string back on whitespace; since the terms are non-empty and
space-free that round trip is the identity, so the term list is used directly. -/
def extractKeyTerms (t : Text) : List Text :=
  ((letterRuns (t.map Char.toLower)).filter
    (fun w => !stopWords.contains w && decide (2 < w.length))).take 5

/-! ### rag_retriever.py — `_rerank_results` (lines 147-191) -/

/-- Content-type boost table (rag_retriever.py lines 154-163), default 1.0. -/
def typeBoost (t : Text) : ℚ :=
  if t = txt "research_paper" then 12/10
  else if t = txt "technical_report" then 11/10
  else if t = txt "wikipedia_article" then 105/100
  else if t = txt "news_article" then 1
  else if t = txt "summary" then 95/100
  else 1

/-- Python `sub in s`: substring containment. -/
def containsSub (t sub : Text) : Bool :=
  (List.range (t.length + 1)).any (fun i => subAt t sub i)

/-- The year literal hardcoded at rag_retriever.py line 167 (`'2024' in date_str`);
the spec calls it the current reference year. -/
def referenceYear : Text := txt "2024"

/-- Recency boost (rag_retriever.py lines 165-168): ×1.1 when the date string
is non-empty and contains the reference year. -/
def recencyBoost (date : Text) : ℚ :=
  if !date.isEmpty && containsSub date referenceYear then 11/10 else 1

/-- Length boost (rag_retriever.py lines 170-175). -/
def lengthBoost (content : Text) : ℚ :=
  if 2000 < content.length then 105/100
  else if content.length < 500 then 95/100
  else 1

/-- Number of query key terms occurring in the lowercased title
(rag_retriever.py lines 177-181); duplicated terms count with multiplicity,
exactly as the source's generator-sum does. -/
def titleMatches (query title : Text) : Nat :=
  ((extractKeyTerms query).filter
    (fun term => containsSub (title.map Char.toLower) term)).length

/-- Title-match boost (rag_retriever.py lines 182-183). -/
def titleBoost (query title : Text) : ℚ :=
  let m := titleMatches query title
  if 0 < m then 1 + (1/10) * m else 1

/-- Scoring function `calculate_advanced_score` (rag_retriever.py lines 150-185): the base
similarity score multiplied by the four boosts, in source order. -/
def calculateAdvancedScore (query : Text) (r : SearchResult) : ℚ :=
  (((r.similarityScore * typeBoost r.mtype) * recencyBoost r.date)
    * lengthBoost r.content) * titleBoost query r.title

/-- rag_retriever.py `_rerank_results` (lines 187-191): store each advanced
score on its result and sort descending by it (Python `sorted` is a stable
mergesort). -/
def rerankResults (query : Text) (rs : List SearchResult) : List SearchResult :=
  let scored := rs.map (fun r => { r with advancedScore := some (calculateAdvancedScore query r) })
  scored.mergeSort (fun a b => decide (b.advancedScore.getD 0 ≤ a.advancedScore.getD 0))

/-! ### vector_store.py — `similarity_search` (lines 144-181) and
`add_document` (lines 82-130)

The two fallible external collaborators are parameters: the embedding gateway
is `emb : Text → Option E` (the source's `_generate_embedding` returns `[]` on
any exception, and every caller treats `[]` as failure), and the ChromaDB
collection is `indexQuery` for queries (wrapped in try/except in the source)
and `addOk` for per-chunk adds (the source swallows per-chunk add exceptions). -/

/-- A raw hit as returned by `collection.query` (id, document, metadata,
distance), before the similarity conversion of lines 168-174. -/
structure RawHit where
  id : Text
  content : Text
  title : Text
  author : Text
  date : Text
  topic : Text
  mtype : Text
  distance : ℚ
deriving DecidableEq

/-- Result formatting of vector_store.py lines 163-175:
`similarity_score = 1 - distance`. -/
def formatResults (hits : List RawHit) : List SearchResult :=
  hits.map (fun h =>
    { id := h.id, content := h.content, title := h.title, author := h.author,
      date := h.date, topic := h.topic, mtype := h.mtype,
      distance := h.distance, similarityScore := 1 - h.distance,
      advancedScore := none })

/-- vector_store.py `similarity_search` (lines 144-181): a failed query
embedding short-circuits to `[]`; an index error (caught by the try/except of
lines 155-181) also yields `[]`.  `k = 0` models Python's falsy `k or
Config.TOP_K_RESULTS`. -/
def similaritySearch {E : Type} (emb : Text → Option E)
    (indexQuery : E → Nat → Except String (List RawHit))
    (query : Text) (k : Nat) : List SearchResult :=
  let k' := if k = 0 then TOP_K_RESULTS else k
  match emb query with
  | none => []
  | some e =>
      match indexQuery e k' with
      | .ok hits => formatResults hits
      | .error _ => []

/-- String form of a natural number, as Python interpolates `i` into the chunk
id. -/
def natTxt (n : Nat) : Text := (Nat.repr n).data

/-- vector_store.py line 96: `f"{doc_id}_chunk_{i}"`. -/
def chunkId (docId : Text) (i : Nat) : Text := docId ++ txt "_chunk_" ++ natTxt i

/-- The per-chunk loop of `add_document` (vector_store.py lines 95-127): the
chunk id is appended to the returned list *before* the embedding is attempted;
an embedding failure `continue`s, an index-add failure is swallowed; only a
successful add lands the chunk in the collection (`index` is the list of chunk
ids stored in the collection, `ids` the accumulated return value). -/
def addChunksLoop {E : Type} (emb : Text → Option E) (addOk : Text → Bool)
    (docId : Text) : Nat → List Text → List Text → List Text → List Text × List Text
  | _, index, ids, [] => (index, ids)
  | i, index, ids, chunk :: rest =>
      let cid := chunkId docId i
      let ids' := ids ++ [cid]
      match emb chunk with
      | none => addChunksLoop emb addOk docId (i + 1) index ids' rest
      | some _ =>
          if addOk cid then addChunksLoop emb addOk docId (i + 1) (index ++ [cid]) ids' rest
          else addChunksLoop emb addOk docId (i + 1) index ids' rest

/-- vector_store.py `add_document` (lines 82-130) for a document with a given
id: empty content returns `[]` without touching the index; otherwise the
content is chunked with the configured size/overlap and the per-chunk loop
runs.  Returns the updated collection contents and the chunk-id list handed to
the caller. -/
def addDocument {E : Type} (emb : Text → Option E) (addOk : Text → Bool)
    (index : List Text) (docId content : Text) : List Text × List Text :=
  if content = [] then (index, [])
  else addChunksLoop emb addOk docId 0 index [] (chunkText content CHUNK_SIZE CHUNK_OVERLAP)

/-- Chunk ids planned for a chunk list starting at ordinal `i` — the list
`add_document` returns no matter which chunks fail (stating vocabulary for the
theorems about `addChunksLoop`). -/
def plannedChunkIds (docId : Text) (i : Nat) : List Text → List Text
  | [] => []
  | _ :: rest => chunkId docId i :: plannedChunkIds docId (i + 1) rest

/-- Chunk ids that actually land in the index: exactly those whose embedding
succeeds and whose index add succeeds (stating vocabulary). -/
def landedChunkIds {E : Type} (emb : Text → Option E) (addOk : Text → Bool)
    (docId : Text) (i : Nat) : List Text → List Text
  | [] => []
  | chunk :: rest =>
      (if (emb chunk).isSome && addOk (chunkId docId i) then [chunkId docId i] else [])
        ++ landedChunkIds emb addOk docId (i + 1) rest

/-! ### rag_retriever.py — external backfill and the retrieve pipeline -/

/-- Conversion of one external document (rag_retriever.py lines 99-124): both
the query embedding and the embedding of the document's leading 1000 content
characters must succeed, else the item is dropped; `cos` is the cosine
similarity of `_cosine_similarity` (its float square-root arithmetic is kept
abstract as a parameter). -/
def convertOne {E : Type} (emb : Text → Option E) (cos : E → E → ℚ)
    (query : Text) (doc : Document) : Option SearchResult :=
  match emb query, emb (doc.content.take 1000) with
  | some qe, some ce =>
      let sim := cos qe ce
      some { id := doc.id, content := doc.content, title := doc.title,
             author := doc.author, date := doc.date, topic := doc.topic,
             mtype := doc.dtype, distance := 1 - sim, similarityScore := sim,
             advancedScore := none }
  | _, _ => none

/-- rag_retriever.py `_convert_external_to_results` (lines 95-126): convert
each item, then sort descending by similarity score. -/
def convertExternalToResults {E : Type} (emb : Text → Option E) (cos : E → E → ℚ)
    (external : List Document) (query : Text) : List SearchResult :=
  (external.filterMap (convertOne emb cos query)).mergeSort
    (fun a b => decide (b.similarityScore ≤ a.similarityScore))

/-- Join term lists with single spaces, as `' '.join` does before the terms are
handed to the content aggregator. -/
def joinSpace (ts : List Text) : Text := (List.intersperse (txt " ") ts).flatten

/-- Append to the accumulator unless already present: first-occurrence
enumeration of a Python `set` / insertion-ordered `dict`. -/
def insertNewT (acc : List Text) (x : Text) : List Text :=
  if x ∈ acc then acc else acc ++ [x]

/-- Occurrence-counting into an insertion-ordered association list, mirroring
`d[k] = d.get(k, 0) + 1` on a Python dict. -/
def bumpCount : List (Text × Nat) → Text → List (Text × Nat)
  | [], t => [(t, 1)]
  | (k, v) :: rest, t =>
      if k = t then (k, v + 1) :: rest else (k, v) :: bumpCount rest t

/-- Comma-join of text pieces (Python `', '.join`). -/
def joinComma (ts : List Text) : Text := (List.intersperse (txt ", ") ts).flatten

/-- Rendering of the mean similarity score.  The source formats a float with
`f"{avg:.2f}"`; the decimal rendering of the exact rational is abstracted to
`toString` since no behaviour depends on the digits. -/
def scoreTxt (q : ℚ) : Text := (toString q).data

/-- rag_retriever.py `_generate_context_summary` (lines 193-233).  Empty
results yield the fixed no-context message.  Otherwise the parts are built as
in the source; the enumeration order of the Python `set` of topics is modelled
as first-occurrence order. -/
def generateContextSummary (query : Text) (results : List SearchResult) : Text :=
  if results = [] then txt "No relevant context found for the query."
  else
    let topics := (results.map (·.topic)).filter (fun t => !t.isEmpty) |>.foldl insertNewT []
    let contentTypes := (results.map (·.mtype)).filter (fun t => !t.isEmpty) |>.foldl insertNewT []
    let part1 := txt "Found " ++ natTxt results.length
      ++ txt " relevant sources for your query about " ++ query ++ txt "."
    let part2 := if topics = [] then []
      else [txt "Related topics include: " ++ joinComma (topics.take 3) ++ txt "."]
    let part3 := if contentTypes = [] then []
      else
        let typeCounts := results.foldl (fun acc r => bumpCount acc r.mtype) []
        let rendered := typeCounts.map (fun kv =>
          natTxt kv.2 ++ txt " " ++ kv.1.map (fun c => if c = '_' then ' ' else c))
        [txt "Sources include: " ++ joinComma rendered ++ txt "."]
    let avg := (results.map (·.similarityScore)).sum / results.length
    let part4 := txt "Average relevance score: " ++ scoreTxt avg
    joinSpace ([part1] ++ part2 ++ part3 ++ [part4])

/-- The dictionary returned by `retrieve_relevant_context`
(rag_retriever.py lines 62-73), including the nested retrieval_metadata. -/
structure RetrievalContext where
  query : Text
  results : List SearchResult
  contextSummary : Text
  totalResultsFound : Nat
  externalSourcesUsed : Nat
  reranked : Bool
  externalContentIncluded : Bool
  finalResultCount : Nat

/-- rag_retriever.py `retrieve_relevant_context` (lines 18-73).  `kArg = 0`
models Python's falsy `k or Config.TOP_K_RESULTS`.  `gather` is the content
aggregator; a gather failure is caught by `_fetch_external_content` and
degrades to no external content (the side effect of persisting fetched
external documents into the vector store does not influence the returned
context and is not modelled).  The function is total: no exception reaches the
caller. -/
def retrieveRelevantContext {E : Type} (emb : Text → Option E) (cos : E → E → ℚ)
    (indexQuery : E → Nat → Except String (List RawHit))
    (gather : Text → Except String (List Document))
    (query : Text) (kArg : Nat) (includeExternal rerank : Bool) : RetrievalContext :=
  let k := if kArg = 0 then TOP_K_RESULTS else kArg
  let initialResults := similaritySearch emb indexQuery query (k * 2)
  let externalResults :=
    if includeExternal && decide (initialResults.length < k) then
      let externalContent :=
        match gather (joinSpace (extractKeyTerms query)) with
        | .ok docs => docs
        | .error _ => []
      convertExternalToResults emb cos externalContent query
    else []
  let allResults := initialResults ++ externalResults
  let deduplicatedResults := deduplicateResults allResults
  let finalResults :=
    if rerank && decide (k < deduplicatedResults.length) then
      (rerankResults query deduplicatedResults).take k
    else deduplicatedResults.take k
  { query := query
    results := finalResults
    contextSummary := generateContextSummary query finalResults
    totalResultsFound := allResults.length
    externalSourcesUsed := externalResults.length
    reranked := rerank
    externalContentIncluded := includeExternal
    finalResultCount := finalResults.length }

/-! ### memory_manager.py — checksums and conditional update (lines 68-71,
130-153) together with vector_store.py `update_document` (lines 225-237) -/

/-- memory_manager.py `_calculate_document_checksum` (lines 68-71):
`md5(title + content + author)`.  The md5 digest is modelled by the hashed
message itself: two documents get equal checksums iff the concatenations are
equal (md5 collisions are ignored). -/
def documentChecksum (doc : Document) : Text :=
  doc.title ++ doc.content ++ doc.author

/-- Mutations applied to the vector index, at the granularity relevant to
update tracking: `delete_document doc_id` (delete of all of the document's
chunks) and `add_document doc_id` (reinsert). -/
inductive IndexOp where
  | deleteDoc (docId : Text)
  | addDoc (docId : Text)
deriving DecidableEq

/-- vector_store.py `update_document` (lines 225-237): a missing id aborts with
no mutation; otherwise the document's chunks are deleted and then re-added. -/
def updateDocument (doc : Document) : List IndexOp :=
  if doc.id = [] then []
  else [IndexOp.deleteDoc doc.id, IndexOp.addDoc doc.id]

/-- memory_manager.py `update_document_if_changed` (lines 130-153): no id → no
mutation; same stored checksum → no mutation; otherwise delegate to
`update_document`.  (The bookkeeping that records the new checksum and
persists the memory state mutates no index state and is not modelled.) -/
def updateDocumentIfChanged (checksums : List (Text × Text)) (doc : Document) :
    List IndexOp :=
  if doc.id = [] then []
  else
    if checksums.lookup doc.id ≠ some (documentChecksum doc) then updateDocument doc
    else []

/-- Contents differing in exactly one character position: equal lengths, one
index where the characters differ, all other indices equal. -/
def differInOneChar (c c' : Text) : Prop :=
  c.length = c'.length ∧
    ∃ i, i < c.length ∧ c.get? i ≠ c'.get? i ∧
      ∀ j, j < c.length → j ≠ i → c.get? j = c'.get? j

/-! ### memory_manager.py — `track_search_pattern` (lines 73-90) -/

/-- The in-memory search-pattern state of MemoryManager: the term-frequency
dict (insertion-ordered association list) and the popular-topic set (modelled
as a duplicate-free list). -/
structure MemoryState where
  searchPatterns : List (Text × Nat)
  popularTopics : List Text
deriving DecidableEq

/-- Frequency of a term in the pattern dict (`search_patterns.get(term, 0)`). -/
def termFreq (ps : List (Text × Nat)) (t : Text) : Nat :=
  (ps.lookup t).getD 0

/-- Python `set.add`. -/
def addTopic (pop : List Text) (t : Text) : List Text :=
  if t ∈ pop then pop else pop ++ [t]

/-- memory_manager.py `track_search_pattern` (lines 73-90): bump the frequency
of every extracted key term longer than 3 characters, then admit every term
whose count has reached 5 into `popular_topics`.  `_extract_key_terms` of
memory_manager.py (lines 92-106) is character-for-character the retriever's
(same stop words, length > 2 filter, first five), so `extractKeyTerms` is
reused.  The periodic `_save_memory_state` touches no tracked state. -/
def trackSearchPattern (query : Text) (st : MemoryState) : MemoryState :=
  let terms := extractKeyTerms query
  let patterns := terms.foldl
    (fun ps t => if 3 < t.length then bumpCount ps t else ps) st.searchPatterns
  let popular := patterns.foldl
    (fun pop kv => if 5 ≤ kv.2 then addTopic pop kv.1 else pop) st.popularTopics
  { searchPatterns := patterns, popularTopics := popular }

/-! ### memory_manager.py — `cleanup_outdated_content` (lines 194-231)

The date parsing of `datetime.strptime(doc_date_str, '%Y-%m-%d')` is modelled
by an executable Gregorian date parser mapping a valid `YYYY-MM-DD` string to
its civil day number; `datetime.now()` and the `timedelta` cutoff live in the
same day scale. -/

/-- Split a character list at every `'-'` (as `'%Y-%m-%d'` fields split). -/
def splitDash : Text → List Text
  | [] => [[]]
  | c :: cs =>
      if c = '-' then [] :: splitDash cs
      else
        match splitDash cs with
        | [] => [[c]]
        | g :: gs => (c :: g) :: gs

/-- Parse a non-empty all-digit field. -/
def digitsToNat : Text → Option Nat
  | s =>
      if !s.isEmpty && s.all Char.isDigit then
        some (s.foldl (fun n c => 10 * n + (c.toNat - 48)) 0)
      else none

/-- Gregorian leap-year rule. -/
def isLeapYear (y : Nat) : Bool :=
  (y % 4 == 0 && y % 100 != 0) || y % 400 == 0

/-- Days in a month, as strptime validates the day field. -/
def daysInMonth (y m : Nat) : Nat :=
  if m = 2 then (if isLeapYear y then 29 else 28)
  else if m = 4 ∨ m = 6 ∨ m = 9 ∨ m = 11 then 30
  else 31

/-- Civil day number of a Gregorian date (days since 1970-01-01, Hinnant's
days-from-civil algorithm; all intermediate quantities are non-negative for
the years strptime accepts). -/
def rataDie (y m d : Nat) : Int :=
  let yAdj : Int := (y : Int) - (if m ≤ 2 then 1 else 0)
  let era : Int := yAdj / 400
  let yoe : Int := yAdj - era * 400
  let mp : Int := ((m : Int) + 9) % 12
  let doy : Int := (153 * mp + 2) / 5 + (d : Int) - 1
  let doe : Int := yoe * 365 + yoe / 4 - yoe / 100 + doy
  era * 146097 + doe - 719468

/-- Model of `datetime.strptime(s, '%Y-%m-%d')`: three dash-separated digit
fields (`%Y` is exactly four digits, `%m` and `%d` one or two) with a valid
month and day-of-month, mapped to the civil day number; `none` where strptime
raises `ValueError`. -/
def parseDate (s : Text) : Option Int :=
  match splitDash s with
  | [ys, ms, ds] =>
      match digitsToNat ys, digitsToNat ms, digitsToNat ds with
      | some y, some m, some d =>
          if ys.length = 4 ∧ ms.length ≤ 2 ∧ ds.length ≤ 2 ∧ 1 ≤ y ∧
              1 ≤ m ∧ m ≤ 12 ∧ 1 ≤ d ∧ d ≤ daysInMonth y m then
            some (rataDie y m d)
          else none
      | _, _, _ => none
  | _ => none

/-- The chunk metadata fields `cleanup_outdated_content` reads
(`document_id` and `date`). -/
structure ChunkMeta where
  documentId : Text
  date : Text
deriving DecidableEq

/-- memory_manager.py lines 207-216: a chunk's date marks its document
outdated iff the date string is non-empty, parses, and is strictly before
`now - max_age_days`; an unparseable date is skipped (`continue`). -/
def chunkDateOutdated (now maxAgeDays : Int) (dateStr : Text) : Bool :=
  if dateStr = [] then false
  else
    match parseDate dateStr with
    | some d => decide (d < now - maxAgeDays)
    | none => false

/-- memory_manager.py `cleanup_outdated_content` (lines 194-231): collect the
set of document ids owning at least one outdated chunk (with a non-empty id);
these are exactly the documents then deleted via the vector store.  The Python
`set` is modelled as a first-occurrence list. -/
def cleanupOutdated (now maxAgeDays : Int) (metas : List ChunkMeta) : List Text :=
  metas.foldl
    (fun acc m =>
      if chunkDateOutdated now maxAgeDays m.date && !m.documentId.isEmpty then
        insertNewT acc m.documentId
      else acc) []

end AgenticRag

namespace AgenticRag

/-! ### Helper lemmas about stripping -/

theorem dropWhile_eq_self_of_leading {p : Char → Bool} {s u : Text}
    (hpre : s <+: u) (hu : u.dropWhile p = u) : s.dropWhile p = s := by
  rw [List.dropWhile_eq_self_iff] at hu ⊢
  intro hs
  have hlen : 0 < u.length := lt_of_lt_of_le hs hpre.length_le
  have hg := List.IsPrefix.getElem hpre hs
  simpa [List.get_eq_getElem, hg] using hu hlen

/-- Stripping is idempotent. -/
theorem pyStrip_idem (l : Text) : pyStrip (pyStrip l) = pyStrip l := by
  unfold pyStrip
  set p := Char.isWhitespace
  set u := l.dropWhile p with hu
  have hfront : u.dropWhile p = u := by rw [hu]; exact List.dropWhile_idempotent p l
  have hpre : u.rdropWhile p <+: u := List.rdropWhile_prefix p u
  rw [dropWhile_eq_self_of_leading hpre hfront]
  exact List.rdropWhile_idempotent p _

/-- Every chunk produced by the windowing loop is stripped and non-empty. -/
theorem chunkLoop_mem_stripped (t : Text) (chunkSize overlap : Nat) :
    ∀ start, ∀ c ∈ chunkLoop t chunkSize overlap start, pyStrip c = c ∧ c ≠ [] := by
  intro start
  generalize hm : t.length - start = m
  induction m using Nat.strong_induction_on generalizing start with
  | _ m ih =>
      intro c hc
      rw [chunkLoop] at hc
      by_cases h : start < t.length
      · simp only [dif_pos h] at hc
        set e := windowEnd t chunkSize start with he
        set chunk := pyStrip ((t.drop start).take (e - start)) with hchunk
        have hnext : t.length - nextStart start e overlap < m := by
          simp only [nextStart]; omega
        by_cases hnil : chunk = []
        · rw [if_pos hnil] at hc
          exact ih _ hnext _ rfl c hc
        · rw [if_neg hnil] at hc
          rcases List.mem_cons.mp hc with h1 | h2
          · subst h1
            exact ⟨by rw [hchunk]; exact pyStrip_idem _, hnil⟩
          · exact ih _ hnext _ rfl c h2
      · simp only [dif_neg h] at hc
        exact absurd hc (List.not_mem_nil c)

/-! ### Claim C5 — forward progress and termination of the chunking loop -/

theorem chunkLoop_length_le (t : Text) (chunkSize overlap : Nat) :
    ∀ start, (chunkLoop t chunkSize overlap start).length ≤ t.length - start := by
  intro start
  generalize hm : t.length - start = m
  induction m using Nat.strong_induction_on generalizing start with
  | _ m ih =>
      rw [chunkLoop]
      by_cases h : start < t.length
      · simp only [dif_pos h]
        set e := windowEnd t chunkSize start with he
        have hlt : t.length - nextStart start e overlap < m := by
          simp only [nextStart]; omega
        have hrest := ih _ hlt (nextStart start e overlap) rfl
        have hge : nextStart start e overlap ≥ start + 1 := le_max_left _ _
        split
        · omega
        · simp only [List.length_cons]
          omega
      · simp only [dif_neg h]
        simp

/-- Claim C5: for every text, chunk size and overlap (including the degenerate
`overlap ≥ chunk_size` configurations), every step of the chunking loop moves
the window start to `max(previous_start + 1, window_end - overlap)`, which is
strictly beyond the previous start, so the measure `t.length - start` strictly
decreases (this is precisely the measure under which Lean accepts `chunkLoop`
as terminating); consequently the loop emits at most one chunk per consumed
position and terminates. -/
theorem chunk_forward_progress_and_terminates :
    (∀ start e overlap : Nat,
      nextStart start e overlap = max (start + 1) (e - overlap) ∧
      start < nextStart start e overlap) ∧
    (∀ (t : Text) (chunkSize overlap start : Nat),
      (chunkLoop t chunkSize overlap start).length ≤ t.length - start) := by
  constructor
  · intro start e overlap
    refine ⟨rfl, ?_⟩
    simp only [nextStart]
    omega
  · exact fun t cs ov start => chunkLoop_length_le t cs ov start

/-! ### Claim C10 — chunks are trimmed and non-empty (corrected) -/

/-- Claim C10, counterexample: for the one-space text and `chunk_size = 10`,
`_chunk_text` returns the text verbatim, so the returned element has leading
whitespace (stripping changes it) — the universal trimmed/non-empty claim is
false on the short-text branch. -/
theorem chunk_trimmed_counterexample :
    ¬ (∀ c ∈ chunkText (txt " ") 10 5, pyStrip c = c ∧ c ≠ []) := by
  decide

/-- Claim C10 (amended): chunks produced by the windowing loop (the case
`len(text) > chunk_size`) are stripped of leading/trailing whitespace and
non-empty; in the case `len(text) ≤ chunk_size` the single returned element is
`text` verbatim (not trimmed, possibly empty). -/
theorem chunk_trimmed_nonempty_amended (t : Text) (chunkSize overlap : Nat) :
    (chunkSize < t.length →
      ∀ c ∈ chunkText t chunkSize overlap, pyStrip c = c ∧ c ≠ []) ∧
    (t.length ≤ chunkSize → chunkText t chunkSize overlap = [t]) := by
  constructor
  · intro hlt c hc
    rw [chunkText, if_neg (by omega)] at hc
    exact chunkLoop_mem_stripped t chunkSize overlap 0 c hc
  · intro hle
    rw [chunkText, if_pos hle]

theorem chunk_trimmed_nonempty_amended_witness :
    chunkText (txt "ab") 5 1 = [txt "ab"] ∧
      (pyStrip (txt "ab") = txt "ab" ∧ txt "ab" ≠ []) :=
  ⟨(chunk_trimmed_nonempty_amended (txt "ab") 5 1).2 (by decide),
   (chunk_trimmed_nonempty_amended (txt "abcd") 2 0).1 (by decide) (txt "ab")
     (by simp +decide [chunkText, chunkLoop, windowEnd, rfind, nextStart, pyStrip, subAt])⟩

/-! ### Claim C6 — deduplication is idempotent -/

theorem deduplicateAux_idem (rs : List SearchResult) :
    ∀ seen, deduplicateAux seen (deduplicateAux seen rs) = deduplicateAux seen rs := by
  induction rs with
  | nil => intro seen; rfl
  | cons r rs ih =>
      intro seen
      by_cases hk : dedupKey r ∈ seen
      · rw [deduplicateAux, if_pos hk, ih seen]
      · rw [deduplicateAux, if_neg hk]
        rw [deduplicateAux, if_neg hk, ih (dedupKey r :: seen)]

theorem deduplicateAux_sublist (rs : List SearchResult) :
    ∀ seen, (deduplicateAux seen rs).Sublist rs := by
  induction rs with
  | nil => intro seen; exact List.Sublist.refl []
  | cons r rs ih =>
      intro seen
      rw [deduplicateAux]
      by_cases hk : dedupKey r ∈ seen
      · rw [if_pos hk]
        exact (ih seen).cons r
      · rw [if_neg hk]
        exact (ih (dedupKey r :: seen)).cons₂ r

/-- Claim C6: `_deduplicate_results` is idempotent —
`dedup(dedup(R)) = dedup(R)` for every candidate list `R` — and it is
order-preserving (the output is a sublist of the input), keeping the first
occurrence of each dedup key (the lowercased, whitespace-trimmed first 200
content characters). -/
theorem dedup_idempotent (rs : List SearchResult) :
    deduplicateResults (deduplicateResults rs) = deduplicateResults rs ∧
      (deduplicateResults rs).Sublist rs :=
  ⟨deduplicateAux_idem rs [], deduplicateAux_sublist rs []⟩

/-! ### Claim C8 — the research_paper type boost dominates (corrected) -/

theorem typeBoost_le_research (t : Text) :
    typeBoost t ≤ typeBoost (txt "research_paper") := by
  have hrp : typeBoost (txt "research_paper") = 12/10 := by simp [typeBoost]
  rw [hrp]
  unfold typeBoost
  split_ifs <;> norm_num

theorem recencyBoost_pos (d : Text) : 0 < recencyBoost d := by
  unfold recencyBoost
  split_ifs <;> norm_num

theorem lengthBoost_pos (c : Text) : 0 < lengthBoost c := by
  unfold lengthBoost
  split_ifs <;> norm_num

theorem titleBoost_pos (q t : Text) : 0 < titleBoost q t := by
  simp only [titleBoost]
  split_ifs <;> positivity

/-- Claim C8, counterexample: with the shared `similarity_score = -1` (the
spec treats the score as unbounded below), the research_paper result scores
strictly *lower* than the otherwise-identical summary result, because the
larger positive multiplier amplifies the negative base. -/
theorem rerank_type_boost_counterexample :
    calculateAdvancedScore (txt "query")
        { id := txt "r", content := txt "x", title := [], author := [], date := [],
          topic := [], mtype := txt "research_paper", distance := 2,
          similarityScore := -1, advancedScore := none }
      < calculateAdvancedScore (txt "query")
        { id := txt "r", content := txt "x", title := [], author := [], date := [],
          topic := [], mtype := txt "summary", distance := 2,
          similarityScore := -1, advancedScore := none } := by
  have hl : (txt "x").length = 1 := by decide
  have hm : titleMatches (txt "query") [] = 0 := by decide
  unfold calculateAdvancedScore
  simp +decide [typeBoost, recencyBoost, lengthBoost, titleBoost, hl, hm]
  norm_num

/-- Claim C8 (amended): for two results identical in all fields except the
metadata type, with the shared `similarity_score` non-negative, the result
typed research_paper (boost ×1.20, the largest entry of the boost table) never
has a lower advanced score than the other. -/
theorem rerank_type_boost_monotone (query : Text) (r other : SearchResult)
    (hrp : r.mtype = txt "research_paper")
    (hother : other = { r with mtype := other.mtype })
    (hsim : 0 ≤ r.similarityScore) :
    calculateAdvancedScore query other ≤ calculateAdvancedScore query r := by
  have h1 : other.similarityScore = r.similarityScore := by rw [hother]
  have h2 : other.content = r.content := by rw [hother]
  have h3 : other.date = r.date := by rw [hother]
  have h4 : other.title = r.title := by rw [hother]
  unfold calculateAdvancedScore
  rw [h1, h2, h3, h4, hrp]
  apply mul_le_mul_of_nonneg_right _ (le_of_lt (titleBoost_pos query r.title))
  apply mul_le_mul_of_nonneg_right _ (le_of_lt (lengthBoost_pos r.content))
  apply mul_le_mul_of_nonneg_right _ (le_of_lt (recencyBoost_pos r.date))
  exact mul_le_mul_of_nonneg_left (typeBoost_le_research other.mtype) hsim

theorem rerank_type_boost_monotone_witness :
    calculateAdvancedScore (txt "query")
        { id := txt "r", content := txt "x", title := [], author := [], date := [],
          topic := [], mtype := txt "summary", distance := 1/2,
          similarityScore := 1/2, advancedScore := none }
      ≤ calculateAdvancedScore (txt "query")
        { id := txt "r", content := txt "x", title := [], author := [], date := [],
          topic := [], mtype := txt "research_paper", distance := 1/2,
          similarityScore := 1/2, advancedScore := none } :=
  rerank_type_boost_monotone (txt "query")
    { id := txt "r", content := txt "x", title := [], author := [], date := [],
      topic := [], mtype := txt "research_paper", distance := 1/2,
      similarityScore := 1/2, advancedScore := none }
    { id := txt "r", content := txt "x", title := [], author := [], date := [],
      topic := [], mtype := txt "summary", distance := 1/2,
      similarityScore := 1/2, advancedScore := none }
    rfl rfl (by norm_num)

/-! ### Claim C9 — the ×1.10 recency boost fires exactly on dates containing
the reference year -/

/-- Claim C9: the recency multiplier of `calculate_advanced_score` is 11/10
exactly when the stored date string contains the reference-year literal
`'2024'` (the non-emptiness test of the source is subsumed by containment),
and on two results identical except for their dates — one containing the
reference year, one not — the advanced score is boosted by exactly the factor
1.10. -/
theorem recency_boost_exact (q : Text) (r1 r2 : SearchResult)
    (h12 : r1 = { r2 with date := r1.date })
    (hy : containsSub r1.date referenceYear = true)
    (hn : containsSub r2.date referenceYear = false) :
    (∀ d : Text, recencyBoost d = 11/10 ↔ containsSub d referenceYear = true) ∧
      10 * calculateAdvancedScore q r1 = 11 * calculateAdvancedScore q r2 := by
  have hiff : ∀ d : Text, recencyBoost d = 11/10 ↔ containsSub d referenceYear = true := by
    intro d
    constructor
    · intro hb
      by_contra hc
      have hc' : containsSub d referenceYear = false := by
        simpa using hc
      rw [recencyBoost] at hb
      simp only [hc', Bool.and_false, Bool.false_eq_true, if_false] at hb
      exact absurd hb (by norm_num)
    · intro hc
      have hne : d.isEmpty = false := by
        cases d with
        | nil => exact absurd hc (by decide)
        | cons a l => rfl
      simp [recencyBoost, hc, hne]
  refine ⟨hiff, ?_⟩
  have e1 : recencyBoost r1.date = 11/10 := (hiff r1.date).mpr hy
  have e2 : recencyBoost r2.date = 1 := by
    simp [recencyBoost, hn]
  have f1 : r1.similarityScore = r2.similarityScore := by rw [h12]
  have f2 : r1.content = r2.content := by rw [h12]
  have f3 : r1.title = r2.title := by rw [h12]
  have f4 : r1.mtype = r2.mtype := by rw [h12]
  unfold calculateAdvancedScore
  rw [f1, f2, f3, f4, e1, e2]
  ring

theorem recency_boost_exact_witness :
    10 * calculateAdvancedScore (txt "query")
          { id := txt "r", content := txt "x", title := [], author := [],
            date := txt "2024-05-01", topic := [], mtype := txt "summary",
            distance := 1/2, similarityScore := 1/2, advancedScore := none }
        = 11 * calculateAdvancedScore (txt "query")
          { id := txt "r", content := txt "x", title := [], author := [],
            date := txt "2023-05-01", topic := [], mtype := txt "summary",
            distance := 1/2, similarityScore := 1/2, advancedScore := none } :=
  (recency_boost_exact (txt "query")
    { id := txt "r", content := txt "x", title := [], author := [],
      date := txt "2024-05-01", topic := [], mtype := txt "summary",
      distance := 1/2, similarityScore := 1/2, advancedScore := none }
    { id := txt "r", content := txt "x", title := [], author := [],
      date := txt "2023-05-01", topic := [], mtype := txt "summary",
      distance := 1/2, similarityScore := 1/2, advancedScore := none }
    rfl (by decide) (by decide)).2

/-! ### Claim C2 — checksum stability of `update_document_if_changed` -/

theorem ne_of_differInOneChar {c c' : Text} (h : differInOneChar c c') : c ≠ c' := by
  rcases h with ⟨-, i, -, hne, -⟩
  intro he
  exact hne (by rw [he])

/-- Claim C2: for a tracked document (non-empty id, stored checksum equal to
the current checksum), `update_document_if_changed` performs no index
mutation; called with the same document whose content differs in exactly one
character, it performs exactly one delete of the document's chunks followed by
one reinsert. -/
theorem update_if_changed_checksum_stability (checksums : List (Text × Text))
    (doc doc' : Document)
    (hid : doc.id ≠ [])
    (htracked : checksums.lookup doc.id = some (documentChecksum doc))
    (hsame : doc' = { doc with content := doc'.content })
    (hdiff : differInOneChar doc.content doc'.content) :
    updateDocumentIfChanged checksums doc = [] ∧
      updateDocumentIfChanged checksums doc' =
        [IndexOp.deleteDoc doc.id, IndexOp.addDoc doc.id] := by
  have hid' : doc'.id = doc.id := by rw [hsame]
  have ht : doc'.title = doc.title := by rw [hsame]
  have ha : doc'.author = doc.author := by rw [hsame]
  have hcne : documentChecksum doc' ≠ documentChecksum doc := by
    unfold documentChecksum
    rw [ht, ha]
    intro he
    have h1 : doc.title ++ doc'.content = doc.title ++ doc.content :=
      List.append_cancel_right he
    have h2 : doc'.content = doc.content := List.append_cancel_left h1
    exact ne_of_differInOneChar hdiff h2.symm
  constructor
  · rw [updateDocumentIfChanged, if_neg hid, if_neg (not_not_intro htracked)]
  · rw [updateDocumentIfChanged, if_neg (by rw [hid']; exact hid)]
    rw [if_pos (by
      rw [hid', htracked]
      intro he
      exact hcne (Option.some.inj he).symm)]
    rw [updateDocument, if_neg (by rw [hid']; exact hid), hid']

theorem update_if_changed_checksum_stability_witness :
    updateDocumentIfChanged
        [(txt "d", documentChecksum
            { id := txt "d", title := txt "T", content := txt "abc",
              author := txt "A", date := txt "2024-01-01", topic := txt "ai",
              dtype := txt "summary" })]
        { id := txt "d", title := txt "T", content := txt "abc",
          author := txt "A", date := txt "2024-01-01", topic := txt "ai",
          dtype := txt "summary" } = [] ∧
      updateDocumentIfChanged
        [(txt "d", documentChecksum
            { id := txt "d", title := txt "T", content := txt "abc",
              author := txt "A", date := txt "2024-01-01", topic := txt "ai",
              dtype := txt "summary" })]
        { id := txt "d", title := txt "T", content := txt "abd",
          author := txt "A", date := txt "2024-01-01", topic := txt "ai",
          dtype := txt "summary" } =
        [IndexOp.deleteDoc (txt "d"), IndexOp.addDoc (txt "d")] :=
  update_if_changed_checksum_stability _
    { id := txt "d", title := txt "T", content := txt "abc",
      author := txt "A", date := txt "2024-01-01", topic := txt "ai",
      dtype := txt "summary" }
    { id := txt "d", title := txt "T", content := txt "abd",
      author := txt "A", date := txt "2024-01-01", topic := txt "ai",
      dtype := txt "summary" }
    (by decide) (by decide) rfl
    ⟨by decide, 2, by decide, by decide, by decide⟩

/-! ### Claim C7 — popular topics grow monotonically and honestly -/

theorem mem_addTopic_of_mem {pop : List Text} {t x : Text} (h : t ∈ pop) :
    t ∈ addTopic pop x := by
  unfold addTopic
  split
  · exact h
  · exact List.mem_append_left _ h

theorem mem_of_mem_addTopic {pop : List Text} {t x : Text}
    (h : t ∈ addTopic pop x) : t ∈ pop ∨ t = x := by
  unfold addTopic at h
  split at h
  · exact Or.inl h
  · rcases List.mem_append.mp h with h1 | h2
    · exact Or.inl h1
    · exact Or.inr (List.mem_singleton.mp h2)

theorem mem_popularFold_of_mem (l : List (Text × Nat)) :
    ∀ pop : List Text, ∀ t ∈ pop,
      t ∈ l.foldl (fun pop kv => if 5 ≤ kv.2 then addTopic pop kv.1 else pop) pop := by
  induction l with
  | nil => intro pop t h; exact h
  | cons kv l ih =>
      intro pop t h
      simp only [List.foldl_cons]
      split
      · exact ih _ t (mem_addTopic_of_mem h)
      · exact ih _ t h

theorem mem_popularFold_source (l : List (Text × Nat)) :
    ∀ pop : List Text, ∀ t,
      t ∈ l.foldl (fun pop kv => if 5 ≤ kv.2 then addTopic pop kv.1 else pop) pop →
      t ∈ pop ∨ ∃ kv ∈ l, kv.1 = t ∧ 5 ≤ kv.2 := by
  induction l with
  | nil => intro pop t h; exact Or.inl h
  | cons kv l ih =>
      intro pop t h
      simp only [List.foldl_cons] at h
      by_cases h5 : 5 ≤ kv.2
      · rw [if_pos h5] at h
        rcases ih _ t h with h1 | ⟨kv', hkv', he, hc⟩
        · rcases mem_of_mem_addTopic h1 with h2 | h2
          · exact Or.inl h2
          · exact Or.inr ⟨kv, List.mem_cons_self _ _, h2.symm, h5⟩
        · exact Or.inr ⟨kv', List.mem_cons_of_mem _ hkv', he, hc⟩
      · rw [if_neg h5] at h
        rcases ih _ t h with h1 | ⟨kv', hkv', he, hc⟩
        · exact Or.inl h1
        · exact Or.inr ⟨kv', List.mem_cons_of_mem _ hkv', he, hc⟩

theorem lookup_eq_of_mem_of_nodup :
    ∀ (l : List (Text × Nat)) (t : Text) (c : Nat),
      (l.map Prod.fst).Nodup → (t, c) ∈ l → l.lookup t = some c := by
  intro l
  induction l with
  | nil => intro t c _ h; exact absurd h (List.not_mem_nil _)
  | cons kv l ih =>
      intro t c hnd hmem
      obtain ⟨k, v⟩ := kv
      simp only [List.map_cons, List.nodup_cons] at hnd
      rcases List.mem_cons.mp hmem with h1 | h2
      · cases h1
        simp [List.lookup]
      · have htk : (t == k) = false := by
          apply beq_eq_false_iff_ne.mpr
          intro he
          subst he
          exact hnd.1 (List.mem_map.mpr ⟨(t, c), h2, rfl⟩)
        simpa [List.lookup, htk] using ih t c hnd.2 h2

theorem bumpCount_keys (s : Text) :
    ∀ ps : List (Text × Nat),
      (bumpCount ps s).map Prod.fst =
        if s ∈ ps.map Prod.fst then ps.map Prod.fst else ps.map Prod.fst ++ [s] := by
  intro ps
  induction ps with
  | nil => simp [bumpCount]
  | cons kv rest ih =>
      obtain ⟨k, v⟩ := kv
      by_cases hk : k = s
      · subst hk
        rw [bumpCount, if_pos rfl]
        simp
      · rw [bumpCount, if_neg hk]
        simp only [List.map_cons, ih]
        by_cases hmem : s ∈ rest.map Prod.fst
        · rw [if_pos hmem, if_pos (List.mem_cons_of_mem _ hmem)]
        · rw [if_neg hmem, if_neg (by
            intro hc
            rcases List.mem_cons.mp hc with h1 | h1
            · exact hk h1.symm
            · exact hmem h1)]
          simp

theorem bumpCount_nodup {ps : List (Text × Nat)} (s : Text)
    (h : (ps.map Prod.fst).Nodup) : ((bumpCount ps s).map Prod.fst).Nodup := by
  rw [bumpCount_keys]
  split
  · exact h
  · next hmem =>
      rw [List.nodup_append]
      exact ⟨h, List.nodup_singleton s,
        fun x hx hxs => hmem ((List.mem_singleton.mp hxs) ▸ hx)⟩

theorem bumpCount_lookup_ne {ps : List (Text × Nat)} {t s : Text} (h : t ≠ s) :
    (bumpCount ps s).lookup t = ps.lookup t := by
  have hts : (t == s) = false := beq_eq_false_iff_ne.mpr h
  induction ps with
  | nil => simp [bumpCount, List.lookup, hts]
  | cons kv rest ih =>
      obtain ⟨k, v⟩ := kv
      by_cases hk : k = s
      · subst hk
        rw [bumpCount, if_pos rfl]
        simp [List.lookup, hts]
      · rw [bumpCount, if_neg hk]
        cases hbt : (t == k)
        · simpa [List.lookup, hbt] using ih
        · simp [List.lookup, hbt]

theorem patternsFold_nodup (terms : List Text) :
    ∀ ps : List (Text × Nat), (ps.map Prod.fst).Nodup →
      ((terms.foldl (fun ps t => if 3 < t.length then bumpCount ps t else ps) ps).map
        Prod.fst).Nodup := by
  induction terms with
  | nil => intro ps h; exact h
  | cons s terms ih =>
      intro ps h
      simp only [List.foldl_cons]
      split
      · exact ih _ (bumpCount_nodup s h)
      · exact ih _ h

theorem patternsFold_lookup_short (terms : List Text) (t : Text) (hshort : t.length ≤ 3) :
    ∀ ps : List (Text × Nat),
      (terms.foldl (fun ps s => if 3 < s.length then bumpCount ps s else ps) ps).lookup t
        = ps.lookup t := by
  induction terms with
  | nil => intro ps; rfl
  | cons s terms ih =>
      intro ps
      simp only [List.foldl_cons]
      split
      · next hlen =>
          rw [ih]
          exact bumpCount_lookup_ne (fun he => by subst he; omega)
      · exact ih ps

theorem mem_popular_trackSearch (q : Text) (st : MemoryState) (t : Text)
    (h : t ∈ st.popularTopics) : t ∈ (trackSearchPattern q st).popularTopics := by
  simp only [trackSearchPattern]
  exact mem_popularFold_of_mem _ _ t h

theorem mem_popular_trackSearch_seq (queries : List Text) (t : Text) :
    ∀ st : MemoryState, t ∈ st.popularTopics →
      t ∈ (queries.foldl (fun s q' => trackSearchPattern q' s) st).popularTopics := by
  induction queries with
  | nil => intro st h; exact h
  | cons q' queries ih =>
      intro st h
      simp only [List.foldl_cons]
      exact ih _ (mem_popular_trackSearch q' st t h)

/-- Claim C7: (i) once a term is in `popular_topics` no sequence of
`track_search_pattern` calls removes it; (ii) every term newly admitted by a
`track_search_pattern` call has frequency at least the threshold 5 in the
resulting pattern map (assuming the dict invariant that keys are unique);
(iii) the frequency of any non-qualifying term (length ≤ 3) is untouched. -/
theorem track_search_popularity (st : MemoryState) (q : Text) (queries : List Text)
    (t : Text) (hnodup : (st.searchPatterns.map Prod.fst).Nodup) :
    (t ∈ st.popularTopics →
      t ∈ (queries.foldl (fun s q' => trackSearchPattern q' s) st).popularTopics) ∧
    (t ∈ (trackSearchPattern q st).popularTopics → t ∉ st.popularTopics →
      5 ≤ termFreq (trackSearchPattern q st).searchPatterns t) ∧
    (t.length ≤ 3 →
      termFreq (trackSearchPattern q st).searchPatterns t = termFreq st.searchPatterns t) := by
  refine ⟨?_, ?_, ?_⟩
  · exact fun h => mem_popular_trackSearch_seq queries t st h
  · intro hmem hnot
    simp only [trackSearchPattern] at hmem ⊢
    rcases mem_popularFold_source _ _ t hmem with h1 | ⟨kv, hkv, he, hc⟩
    · exact absurd h1 hnot
    · have hnd' := patternsFold_nodup (extractKeyTerms q) _ hnodup
      have hl : (((extractKeyTerms q).foldl
          (fun ps s => if 3 < s.length then bumpCount ps s else ps)
          st.searchPatterns).lookup t) = some kv.2 := by
        apply lookup_eq_of_mem_of_nodup _ _ _ hnd'
        have : kv = (t, kv.2) := by
          cases kv
          simp only at he
          rw [he]
        exact this ▸ hkv
      rw [termFreq, hl]
      exact hc
  · intro hshort
    simp only [trackSearchPattern, termFreq]
    rw [patternsFold_lookup_short _ _ hshort]

theorem track_search_popularity_witness :
    5 ≤ termFreq (trackSearchPattern (txt "machine learning")
        (⟨[(txt "machine", 4)], []⟩ : MemoryState)).searchPatterns (txt "machine") :=
  (track_search_popularity ⟨[(txt "machine", 4)], []⟩
    (txt "machine learning") [] (txt "machine") (by decide)).2.1
    (by decide) (by decide)

/-! ### Claim C4 — `cleanup_outdated_content` deletes exactly the stale
documents -/

theorem mem_insertNewT {acc : List Text} {x d : Text} :
    d ∈ insertNewT acc x ↔ d ∈ acc ∨ d = x := by
  unfold insertNewT
  split
  · next hx => exact ⟨Or.inl, fun h => h.elim id (fun he => he ▸ hx)⟩
  · simp [List.mem_append]

theorem chunkDateOutdated_iff (now maxAge : Int) (ds : Text) :
    chunkDateOutdated now maxAge ds = true ↔
      ∃ dt, parseDate ds = some dt ∧ dt < now - maxAge := by
  unfold chunkDateOutdated
  by_cases hds : ds = []
  · subst hds
    rw [if_pos rfl]
    simp [show parseDate ([] : Text) = none from rfl]
  · rw [if_neg hds]
    cases hp : parseDate ds with
    | none => simp [hp]
    | some dt => simp [hp]

theorem mem_cleanupFold (now maxAge : Int) (metas : List ChunkMeta) :
    ∀ acc (d : Text),
      (d ∈ metas.foldl
        (fun acc m =>
          if chunkDateOutdated now maxAge m.date && !m.documentId.isEmpty then
            insertNewT acc m.documentId
          else acc) acc) ↔
      d ∈ acc ∨ ∃ m ∈ metas, m.documentId = d ∧
        chunkDateOutdated now maxAge m.date = true ∧ m.documentId ≠ [] := by
  induction metas with
  | nil => intro acc d; simp
  | cons m metas ih =>
      intro acc d
      simp only [List.foldl_cons]
      split
      · next hflag =>
          simp only [Bool.and_eq_true, Bool.not_eq_true', List.isEmpty_eq_false] at hflag
          rw [ih, mem_insertNewT]
          simp only [List.mem_cons]
          constructor
          · rintro ((h | rfl) | ⟨m', hm', rest⟩)
            · exact Or.inl h
            · exact Or.inr ⟨m, Or.inl rfl, rfl, hflag.1, hflag.2⟩
            · exact Or.inr ⟨m', Or.inr hm', rest⟩
          · rintro (h | ⟨m', (rfl | hm'), rest⟩)
            · exact Or.inl (Or.inl h)
            · exact Or.inl (Or.inr rest.1.symm)
            · exact Or.inr ⟨m', hm', rest⟩
      · next hflag =>
          rw [ih]
          simp only [Bool.and_eq_true, Bool.not_eq_true', List.isEmpty_eq_false,
            not_and] at hflag
          simp only [List.mem_cons]
          constructor
          · rintro (h | ⟨m', hm', rest⟩)
            · exact Or.inl h
            · exact Or.inr ⟨m', Or.inr hm', rest⟩
          · rintro (h | ⟨m', (rfl | hm'), rest⟩)
            · exact Or.inl h
            · exact absurd rest.2.2 (by simpa using hflag rest.2.1)
            · exact Or.inr ⟨m', hm', rest⟩

/-- Claim C4: `cleanup_outdated_content` deletes exactly the documents owning
a chunk whose date parses to a day strictly before `now - max_age_days`
(unparseable dates never mark a document, so a document all of whose chunks
have unparseable dates is never deleted); in particular, over five documents
dated 10, 45, 91, 120 and 200 days old with `max_age_days = 90`, exactly the
three documents at least 91 days old are removed. -/
theorem cleanup_outdated_correct (now maxAge : Int) (metas : List ChunkMeta) (d : Text) :
    (d ∈ cleanupOutdated now maxAge metas ↔
      ∃ m ∈ metas, m.documentId = d ∧ m.documentId ≠ [] ∧
        ∃ dt, parseDate m.date = some dt ∧ dt < now - maxAge) ∧
    ((∀ m ∈ metas, m.documentId = d → parseDate m.date = none) →
      d ∉ cleanupOutdated now maxAge metas) ∧
    cleanupOutdated (rataDie 2026 10 12) 90
        [⟨txt "doc10", txt "2026-10-02"⟩, ⟨txt "doc45", txt "2026-08-28"⟩,
         ⟨txt "doc91", txt "2026-07-13"⟩, ⟨txt "doc120", txt "2026-06-14"⟩,
         ⟨txt "doc200", txt "2026-03-26"⟩]
      = [txt "doc91", txt "doc120", txt "doc200"] := by
  have hiff : d ∈ cleanupOutdated now maxAge metas ↔
      ∃ m ∈ metas, m.documentId = d ∧ m.documentId ≠ [] ∧
        ∃ dt, parseDate m.date = some dt ∧ dt < now - maxAge := by
    rw [cleanupOutdated, mem_cleanupFold]
    simp only [List.not_mem_nil, false_or]
    constructor
    · rintro ⟨m, hm, he, hout, hne⟩
      exact ⟨m, hm, he, hne, (chunkDateOutdated_iff now maxAge m.date).mp hout⟩
    · rintro ⟨m, hm, he, hne, hdt⟩
      exact ⟨m, hm, he, (chunkDateOutdated_iff now maxAge m.date).mpr hdt, hne⟩
  refine ⟨hiff, ?_, by decide⟩
  intro hnone hd
  rcases hiff.mp hd with ⟨m, hm, he, -, dt, hp, -⟩
  rw [hnone m hm he] at hp
  exact Option.noConfusion hp

theorem cleanup_outdated_correct_witness :
    txt "docX" ∉ cleanupOutdated (rataDie 2026 10 12) 90
      [⟨txt "docX", txt "not-a-date"⟩] :=
  (cleanup_outdated_correct (rataDie 2026 10 12) 90
    [⟨txt "docX", txt "not-a-date"⟩] (txt "docX")).2.1 (by decide)

/-! ### Claim C3 — per-chunk failure isolation during ingestion (corrected) -/

theorem addChunksLoop_spec {E : Type} (emb : Text → Option E) (addOk : Text → Bool)
    (docId : Text) (chunks : List Text) :
    ∀ (i : Nat) (index ids : List Text),
      addChunksLoop emb addOk docId i index ids chunks
        = (index ++ landedChunkIds emb addOk docId i chunks,
           ids ++ plannedChunkIds docId i chunks) := by
  induction chunks with
  | nil => intro i index ids; simp [addChunksLoop, landedChunkIds, plannedChunkIds]
  | cons c rest ih =>
      intro i index ids
      rw [addChunksLoop]
      cases he : emb c with
      | none =>
          simp [ih, landedChunkIds, plannedChunkIds, he]
      | some v =>
          by_cases ha : addOk (chunkId docId i)
          · rw [if_pos ha]
            simp [ih, landedChunkIds, plannedChunkIds, he, ha]
          · rw [if_neg ha]
            simp [ih, landedChunkIds, plannedChunkIds, he, ha]

/-- Claim C3, counterexample: a document whose single chunk's embedding fails
lands nothing in the index, yet `add_document` still returns the chunk's id
(`chunk_ids.append` runs before the embedding check), so the returned list
does not report the chunks that actually landed. -/
theorem ingestion_report_counterexample :
    (addDocument (fun _ => (none : Option Unit)) (fun _ => true) []
        (txt "doc") (txt "hello")).1 = [] ∧
    (addDocument (fun _ => (none : Option Unit)) (fun _ => true) []
        (txt "doc") (txt "hello")).2 = [txt "doc_chunk_0"] ∧
    (addDocument (fun _ => (none : Option Unit)) (fun _ => true) []
        (txt "doc") (txt "hello")).2
      ≠ (addDocument (fun _ => (none : Option Unit)) (fun _ => true) []
        (txt "doc") (txt "hello")).1 := by
  refine ⟨by decide, by decide, by decide⟩

/-- Claim C3 (amended): during ingestion of a document with non-empty content,
a failure affecting one chunk (embedding failure or index-add failure) only
keeps that chunk out of the index — the chunks that land are exactly those
whose embedding and index add both succeed, so ingestion continues with the
remaining chunks — but the chunk-id list returned to the caller is the full
planned id list of every chunk, the failed ones included. -/
theorem ingestion_per_chunk_isolation {E : Type} (emb : Text → Option E)
    (addOk : Text → Bool) (index : List Text) (docId content : Text)
    (h : content ≠ []) :
    addDocument emb addOk index docId content
      = (index ++ landedChunkIds emb addOk docId 0 (chunkText content CHUNK_SIZE CHUNK_OVERLAP),
         plannedChunkIds docId 0 (chunkText content CHUNK_SIZE CHUNK_OVERLAP)) := by
  rw [addDocument, if_neg h]
  simpa using addChunksLoop_spec emb addOk docId _ 0 index []

theorem ingestion_per_chunk_isolation_witness :
    addDocument (fun c => if c = txt "hi" then some () else none) (fun _ => true) []
        (txt "doc") (txt "hi")
      = ([] ++ landedChunkIds (fun c => if c = txt "hi" then some () else none)
            (fun _ => true) (txt "doc") 0 (chunkText (txt "hi") CHUNK_SIZE CHUNK_OVERLAP),
         plannedChunkIds (txt "doc") 0 (chunkText (txt "hi") CHUNK_SIZE CHUNK_OVERLAP)) :=
  ingestion_per_chunk_isolation (fun c => if c = txt "hi" then some () else none)
    (fun _ => true) [] (txt "doc") (txt "hi") (by decide)

/-! ### Claim C1 — a failed query embedding is fatal but contained -/

theorem convertExternal_queryFail {E : Type} (emb : Text → Option E)
    (cos : E → E → ℚ) (docs : List Document) (query : Text)
    (h : emb query = none) :
    convertExternalToResults emb cos docs query = [] := by
  unfold convertExternalToResults
  have hfm : docs.filterMap (convertOne emb cos query) = [] := by
    induction docs with
    | nil => rfl
    | cons d docs ih => simp [List.filterMap_cons, convertOne, h, ih]
  rw [hfm]
  simp

/-- Claim C1: when the embedding gateway fails on the query text,
`retrieve_relevant_context` returns a context with `results = []` and
`total_results_found = 0`, and the summary is the fixed no-context message
(the failure indicator); being a total function of its collaborators, the
model raises nothing to the caller — in the source every fallible call on this
path is guarded (the gateway returns a falsy value, index and aggregator
errors are caught). -/
theorem retrieve_embedding_failure {E : Type} (emb : Text → Option E)
    (cos : E → E → ℚ) (indexQuery : E → Nat → Except String (List RawHit))
    (gather : Text → Except String (List Document))
    (query : Text) (kArg : Nat) (includeExternal rerank : Bool)
    (hfail : emb query = none) :
    (retrieveRelevantContext emb cos indexQuery gather query kArg
        includeExternal rerank).results = [] ∧
    (retrieveRelevantContext emb cos indexQuery gather query kArg
        includeExternal rerank).totalResultsFound = 0 ∧
    (retrieveRelevantContext emb cos indexQuery gather query kArg
        includeExternal rerank).contextSummary
      = txt "No relevant context found for the query." := by
  have hinit : ∀ n, similaritySearch emb indexQuery query n = [] := by
    intro n
    simp [similaritySearch, hfail]
  have hext : ∀ docs, convertExternalToResults emb cos docs query = [] :=
    fun docs => convertExternal_queryFail emb cos docs query hfail
  simp [retrieveRelevantContext, hinit, hext, deduplicateResults, deduplicateAux,
    generateContextSummary, rerankResults]

theorem retrieve_embedding_failure_witness :
    (retrieveRelevantContext (E := Unit) (fun _ => none) (fun _ _ => 0)
        (fun _ _ => Except.ok []) (fun _ => Except.ok [])
        (txt "ai agents") 5 true true).results = [] ∧
    (retrieveRelevantContext (E := Unit) (fun _ => none) (fun _ _ => 0)
        (fun _ _ => Except.ok []) (fun _ => Except.ok [])
        (txt "ai agents") 5 true true).totalResultsFound = 0 ∧
    (retrieveRelevantContext (E := Unit) (fun _ => none) (fun _ _ => 0)
        (fun _ _ => Except.ok []) (fun _ => Except.ok [])
        (txt "ai agents") 5 true true).contextSummary
      = txt "No relevant context found for the query." :=
  retrieve_embedding_failure (fun _ => none) (fun _ _ => 0)
    (fun _ _ => Except.ok []) (fun _ => Except.ok [])
    (txt "ai agents") 5 true true rfl

end AgenticRag
